import Mathlib

/-!
Verification of the PartyPrint polling scripts (tkpatyprint repository).

The development shallow-embeds the image-normalization pipeline of
src/printer-client/polling_script.py (function preprocess_image_for_print)
and, where the claims reference it, the earlier iteration
src/polling_script.py, together with the job-processing step of the main
polling loop.  All pixel and geometry arithmetic from the Python source is
translated into exact integer arithmetic: a Python float expression such as
aspect = w / h is an exact rational here, and every comparison or rounding
of such a rational is expressed by cross-multiplied integer arithmetic so
that all definitions evaluate by kernel reduction.  (For every concrete
input appearing below the Python float computations are exact, so the
rational semantics coincides with the float semantics.)
-/

/-! ### Exact fraction helpers

Integer implementations of floor, ceiling and truncation of an exact
fraction p / q, and of comparison of two fractions.  These encode the
real-number semantics of the Python float operations used by the source. -/

/-- Floor of the exact fraction p / q, for q different from 0 (sign-correct).
For 0 < q this is Euclidean division, which is floor division there. -/
def ratFloorDiv (p q : ℤ) : ℤ := if 0 < q then p / q else -p / -q

/-- Ceiling of the exact fraction p / q, for q different from 0. -/
def ratCeilDiv (p q : ℤ) : ℤ := -(ratFloorDiv (-p) q)

/-- Truncation toward zero of the exact fraction p / q: the Python int()
conversion applied to p / q.  Int.tdiv is division rounding toward zero. -/
def truncFrac (p q : ℤ) : ℤ := Int.tdiv p q

/-- Comparison a / b >= c / d of exact fractions with b, d different from 0:
multiplying both sides by the positive quantity b^2 * d^2 gives the
sign-correct cross-multiplied form. -/
def fracGE (a b c d : ℤ) : Bool := decide (0 ≤ (a * d - c * b) * (b * d))

/-! ### Configuration constants

From src/printer-client/polling_script.py lines 35-39.  The module constant
IMAGE_RESOLUTION is compared only against the literal "600dpi" (line 126),
every other value selecting the 300 DPI branch, so the configuration is
embedded as a two-valued type. -/

inductive Resolution where
  | dpi300 : Resolution
  | dpi600 : Resolution
deriving DecidableEq

/-- Value of the IMAGE_RESOLUTION module constant (line 35: "300dpi"). -/
def IMAGE_RESOLUTION : Resolution := Resolution.dpi300

/-- Numerator of the BORDER_INCHES module constant (line 39: 0.25). -/
def BORDER_INCHES_NUM : ℤ := 1

/-- Denominator of the BORDER_INCHES module constant (line 39: 0.25). -/
def BORDER_INCHES_DEN : ℤ := 4

/-- The dpi_value variable of preprocess_image_for_print (lines 126-135). -/
def dpiValue : Resolution → ℤ
  | Resolution.dpi600 => 600
  | Resolution.dpi300 => 300

/-- The base_width variable (lines 128 and 133): 3600 at 600 DPI, 1800 at
300 DPI. -/
def baseWidth : Resolution → ℤ
  | Resolution.dpi600 => 3600
  | Resolution.dpi300 => 1800

/-- The base_height variable (lines 129 and 134): 2400 at 600 DPI, 1200 at
300 DPI. -/
def baseHeight : Resolution → ℤ
  | Resolution.dpi600 => 2400
  | Resolution.dpi300 => 1200

/-! ### Orientation and target canvas (lines 122-145) -/

/-- Line 123: is_portrait = img.height > img.width. -/
def isPortrait (w h : ℤ) : Bool := decide (w < h)

/-- Lines 137-145: portrait swaps the base dimensions, landscape keeps
them.  Returns (target_width, target_height). -/
def targetSize (w h : ℤ) (res : Resolution) : ℤ × ℤ :=
  if isPortrait w h then (baseHeight res, baseWidth res)
  else (baseWidth res, baseHeight res)

/-- Line 148: border_pixels = int(BORDER_INCHES * dpi_value), with the
border given as the exact fraction bn / bd; int() truncates toward zero. -/
def borderPixels (bn bd dpi : ℤ) : ℤ := truncFrac (bn * dpi) bd

/-- Modelled from the spec: section 4.2 states border pixels =
round(border_inches × density), rounding to the nearest integer.  For the
exact fraction p / q with 0 < q this is floor(p / q + 1/2), computed as
floor((2p + q) / (2q)); the code instead truncates. -/
def specRoundNearest (p q : ℤ) : ℤ := ratFloorDiv (2 * p + q) (2 * q)

/-! ### PIL Image.thumbnail size computation

The call img.thumbnail((available_width, available_height), LANCZOS) at
line 156 resizes in place to the size computed by the following logic from
PIL (Image.thumbnail): given box (bw, bh) and image size (w, h),

  if bw >= w and bh >= h: keep (w, h)
  aspect = w / h
  if bw / bh >= aspect:
      new_w = max(min(floor(bh * aspect), ceil(bh * aspect),
                      key = fun n => abs (aspect - n / bh)), 1)
      result (new_w, bh)
  else:
      new_h = max(min(floor(bw / aspect), ceil(bw / aspect),
                      key = fun n => abs (aspect - bw / n) bar key 0 = 0), 1)
      result (bw, new_h)

with min picking the first argument on ties.  The key comparisons are
translated to cross-multiplied integer form: in the first branch both
candidate keys share the positive denominator abs (h * bh), so comparing
abs (w * bh - n * h) suffices; in the second branch the key of a nonzero n
is abs (w * n - bw * h) / (abs h * abs n), so the comparison multiplies
each side by the other candidate. -/

/-- Clamp below by 1: the max(..., 1) of round_aspect. -/
def clampOne (n : ℤ) : ℤ := if n < 1 then 1 else n

/-- The round_aspect computation of the first thumbnail branch, choosing
the new width nearest to bh * w / h (ties to floor) and clamping at 1. -/
def roundAspectW (w h bh : ℤ) : ℤ :=
  let f := ratFloorDiv (bh * w) h
  let c := ratCeilDiv (bh * w) h
  clampOne (if (w * bh - f * h).natAbs ≤ (w * bh - c * h).natAbs then f else c)

/-- Key comparison of the second thumbnail branch: whether the candidate f
has an aspect-distance key no larger than the candidate c (the key of 0 is
0, and the keys of nonzero candidates are compared after clearing the
positive denominators). -/
def keyLEH (w h bw f c : ℤ) : Bool :=
  if f = 0 then true
  else if c = 0 then decide (w * f - bw * h = 0)
  else decide ((w * f - bw * h).natAbs * c.natAbs ≤ (w * c - bw * h).natAbs * f.natAbs)

/-- The round_aspect computation of the second thumbnail branch, choosing
the new height among floor and ceiling of bw * h / w by the aspect-distance
key (ties to floor) and clamping at 1. -/
def roundAspectH (w h bw : ℤ) : ℤ :=
  let f := ratFloorDiv (bw * h) w
  let c := ratCeilDiv (bw * h) w
  clampOne (if keyLEH w h bw f c then f else c)

/-- Size produced by img.thumbnail((bw, bh)) on an image of size (w, h). -/
def thumbnailSize (w h bw bh : ℤ) : ℤ × ℤ :=
  if w ≤ bw ∧ h ≤ bh then (w, h)
  else if fracGE bw bh w h then (roundAspectW w h bh, bh)
  else (bw, roundAspectH w h bw)

/-! ### Full geometry of preprocess_image_for_print (lines 122-166) -/

structure Geometry where
  targetW : ℤ
  targetH : ℤ
  borderPx : ℤ
  availW : ℤ
  availH : ℤ
  fitW : ℤ
  fitH : ℤ
  offX : ℤ
  offY : ℤ
deriving DecidableEq

/-- The geometry computed by preprocess_image_for_print for a decoded
source of size (w, h): target canvas (lines 126-145), border pixels
(line 148), available area inside the border (lines 152-153), fitted size
from img.thumbnail (line 156), and centering offsets with Python floor
division (lines 162-163). -/
def preprocessGeometry (w h : ℤ) (res : Resolution) (bn bd : ℤ) : Geometry :=
  let dpi := dpiValue res
  let t := targetSize w h res
  let b := borderPixels bn bd dpi
  let aw := t.1 - 2 * b
  let ah := t.2 - 2 * b
  let f := thumbnailSize w h aw ah
  ⟨t.1, t.2, b, aw, ah, f.1, f.2,
    Int.fdiv (t.1 - f.1) 2, Int.fdiv (t.2 - f.2) 2⟩

/-! ### Error taxonomy

The code raises no error class of its own: failures inside
preprocess_image_for_print are whatever PIL or Python raises, logged and
re-raised (lines 196-198).  decodeError stands for a failed Image.open,
zeroDivisionError for the float divisions in thumbnail when the source or
box height is 0 and for the draft and reducing-gap factor divisions when a
computed size component is 0, valueError for the C-level resize, which
rejects any negative width or height.  invalidGeometryError is modelled
from the spec (section 4.2): the spec names an InvalidGeometryError for a
border that consumes the canvas; no such class or check exists anywhere in
the code. -/

inductive PreprocessError where
  | decodeError : PreprocessError
  | zeroDivisionError : PreprocessError
  | valueError : PreprocessError
  | invalidGeometryError : PreprocessError
deriving DecidableEq

/-- The thumbnail call with its failure modes: aspect = w / h divides by
zero when h = 0, the branch test bw / bh divides by zero when bh = 0, a
computed size with a zero component raises ZeroDivisionError before the
resize (the draft call divides the source size by the requested size, and
the reducing-gap factor inside resize divides the box extent by the size
component), and a remaining negative component raises ValueError in the
C-level resize, which requires width and height above zero.  The early
return for an image already inside the box performs no division and no
resize. -/
def thumbnailResult (w h bw bh : ℤ) : Except PreprocessError (ℤ × ℤ) :=
  if w ≤ bw ∧ h ≤ bh then Except.ok (w, h)
  else if h = 0 then Except.error PreprocessError.zeroDivisionError
  else if bh = 0 then Except.error PreprocessError.zeroDivisionError
  else
    let s := thumbnailSize w h bw bh
    if s.1 = 0 ∨ s.2 = 0 then Except.error PreprocessError.zeroDivisionError
    else if s.1 < 0 ∨ s.2 < 0 then Except.error PreprocessError.valueError
    else Except.ok s

/-- Outcome of preprocess_image_for_print on a source of size (w, h):
a failed decode raises, and otherwise the geometry runs with the failure
modes of thumbnailResult.  No geometry validation of any kind is performed
by the code. -/
def preprocessResult (decodeOk : Bool) (w h : ℤ) (res : Resolution) (bn bd : ℤ) :
    Except PreprocessError Geometry :=
  if decodeOk then
    let g := preprocessGeometry w h res bn bd
    match thumbnailResult w h g.availW g.availH with
    | Except.error e => Except.error e
    | Except.ok _ => Except.ok g
  else Except.error PreprocessError.decodeError

/-! ### JPEG encoding parameters (lines 177-187 of the printer-client
script; line 114 of src/polling_script.py) -/

structure JpegSaveParams where
  quality : ℤ
  optimize : Bool
  progressive : Bool
  /-- The Pillow subsampling argument: 0 selects 4:4:4, -1 (the value when
  the argument is not passed) leaves the libjpeg default 4:2:0. -/
  subsampling : ℤ
  densityDpi : Option (ℤ × ℤ)
deriving DecidableEq

/-- Save call of src/printer-client/polling_script.py lines 177-187:
quality=95, optimize=False, progressive=False, subsampling=0,
dpi=(dpi_value, dpi_value). -/
def clientEncode (res : Resolution) : JpegSaveParams :=
  ⟨95, false, false, 0, some (dpiValue res, dpiValue res)⟩

/-- Save call of src/polling_script.py line 114: quality=95, optimize=True,
with progressive, subsampling and dpi left at the Pillow defaults (False,
-1 and absent). -/
def rootEncode : JpegSaveParams :=
  ⟨95, true, false, -1, none⟩

/-- Chroma subsampling actually written to the stream: passing -1 leaves
the libjpeg default 2x2 sampling (4:2:0, Pillow index 2). -/
def effectiveSubsampling (p : JpegSaveParams) : ℤ :=
  if p.subsampling = -1 then 2 else p.subsampling

/-! ### Color mode conversion (lines 116-120; lines 91-93 of
src/polling_script.py) -/

inductive PilMode where
  | RGB : PilMode
  | RGBA : PilMode
  | L : PilMode
  | CMYK : PilMode
deriving DecidableEq

/-- Lines 118-120: if img.mode != RGB then img = img.convert(RGB). -/
def convertForPrint (m : PilMode) : PilMode :=
  if m = PilMode.RGB then m else PilMode.RGB

/-- Per-pixel effect of the PIL convert call from RGBA to RGB: the alpha
band is discarded and the color bands pass through unchanged. -/
def pilRGBAtoRGB (r g b a : ℕ) : ℕ × ℕ × ℕ := (r, g, b)

/-- Per-pixel effect of the PIL convert call from single-band grayscale to
RGB: the gray value is replicated into the three channels. -/
def pilLtoRGB (g : ℕ) : ℕ × ℕ × ℕ := (g, g, g)

/-- Modelled from the spec: section 4.1 requires an alpha channel to be
composited over an opaque white background (value 255) instead of being
dropped; this is the standard over operator against white with 8-bit
alpha.  The code contains no such compositing step. -/
def flattenOverWhite (r g b a : ℕ) : ℕ × ℕ × ℕ :=
  ((r * a + 255 * (255 - a)) / 255,
   (g * a + 255 * (255 - a)) / 255,
   (b * a + 255 * (255 - a)) / 255)

/-! ### The main polling loop, per-job step (printer-client script lines
253-408; root script lines 198-262)

The externally determined outcomes of the download, of the preprocessing
and of the lp print command are inputs of the step.  The printed set and
the ledger file (PRINTED_TRACKER) are the state.  Every failure path of
the loop body executes a continue statement: the download failure paths at
lines 284, 295, 302 and 306, the preprocessing failure path at line 328,
and the print failure path at line 398.  Only the fall-through at lines
400-401 adds the filename to the printed set and appends it to the
ledger. -/

structure LoopConfig where
  dryRun : Bool
  skipPreprocessing : Bool
deriving DecidableEq

structure LoopState where
  printed : List String
  ledger : List String
deriving DecidableEq

structure JobEnv where
  downloadOk : Bool
  preprocessOk : Bool
  printOk : Bool
deriving DecidableEq

structure StepOutcome where
  state : LoopState
  printCommandRun : Bool
deriving DecidableEq

/-- One iteration of the polling loop on a pending job named f. -/
def processJob (cfg : LoopConfig) (s : LoopState) (f : String) (env : JobEnv) :
    StepOutcome :=
  if f ∈ s.printed then ⟨s, false⟩
  else if ¬ env.downloadOk then ⟨s, false⟩
  else if ¬ cfg.skipPreprocessing ∧ ¬ env.preprocessOk then ⟨s, false⟩
  else if cfg.dryRun then ⟨⟨f :: s.printed, s.ledger ++ [f]⟩, false⟩
  else if env.printOk then ⟨⟨f :: s.printed, s.ledger ++ [f]⟩, true⟩
  else ⟨s, true⟩

/-- The polling loop over a list of pending jobs: each iteration ends in a
continue or in the bookkeeping fall-through, never in termination, so the
remaining jobs are always processed. -/
def runJobs (cfg : LoopConfig) (s : LoopState) : List (String × JobEnv) → LoopState
  | [] => s
  | j :: rest => runJobs cfg (processJob cfg s j.1 j.2).state rest

/-! ### Bridge lemmas: the integer fraction helpers against rational
floor, ceiling and comparison -/

theorem ratFloorDiv_eq_floor (p q : ℤ) (hq : 0 < q) :
    ratFloorDiv p q = ⌊(p : ℚ) / (q : ℚ)⌋ := by
  rw [ratFloorDiv, if_pos hq]
  lift q to ℕ using hq.le with n
  rw [show (((n : ℤ) : ℚ)) = ((n : ℕ) : ℚ) by push_cast; ring]
  exact (Rat.floor_intCast_div_natCast p n).symm

theorem ratCeilDiv_eq_ceil (p q : ℤ) (hq : 0 < q) :
    ratCeilDiv p q = ⌈(p : ℚ) / (q : ℚ)⌉ := by
  rw [ratCeilDiv, ratFloorDiv_eq_floor _ _ hq]
  rw [show ((-p : ℤ) : ℚ) = -(p : ℚ) by push_cast; ring]
  rw [neg_div, Int.floor_neg, neg_neg]

theorem fracGE_iff (a b c d : ℤ) (hb : 0 < b) (hd : 0 < d) :
    fracGE a b c d = true ↔ (c : ℚ) / (d : ℚ) ≤ (a : ℚ) / (b : ℚ) := by
  rw [fracGE, decide_eq_true_eq]
  rw [div_le_div_iff (by exact_mod_cast hd) (by exact_mod_cast hb)]
  constructor
  · intro h0
    have h1 : 0 ≤ a * d - c * b := by
      by_contra hneg
      push_neg at hneg
      nlinarith [mul_pos hb hd]
    have h2 : c * b ≤ a * d := by linarith
    exact_mod_cast h2
  · intro h0
    have h2 : c * b ≤ a * d := by exact_mod_cast h0
    exact mul_nonneg (by linarith) (mul_pos hb hd).le

theorem clampOne_one_le (n : ℤ) : 1 ≤ clampOne n := by
  rw [clampOne]; split <;> omega

theorem clampOne_le_of_le (n B : ℤ) (hB : 1 ≤ B) (h : n ≤ B) : clampOne n ≤ B := by
  rw [clampOne]; split <;> omega

theorem clampOne_near (n : ℤ) (v : ℚ) (hv : 0 ≤ v) (hn : n = ⌊v⌋ ∨ n = ⌈v⌉) :
    |((clampOne n : ℤ) : ℚ) - v| ≤ 1 := by
  rw [abs_le, clampOne]
  rcases hn with rfl | rfl
  · split_ifs with hlt
    · have hv1 : v < 1 := by
        have h0 : v < ((1 : ℤ) : ℚ) := Int.floor_lt.mp hlt
        simpa using h0
      constructor <;> push_cast <;> linarith
    · have h1 : ((⌊v⌋ : ℤ) : ℚ) ≤ v := Int.floor_le v
      have h2 : v - 1 < ((⌊v⌋ : ℤ) : ℚ) := Int.sub_one_lt_floor v
      constructor <;> linarith
  · split_ifs with hlt
    · have h0 : ⌈v⌉ ≤ (0 : ℤ) := by omega
      have hv0 : v ≤ ((0 : ℤ) : ℚ) := Int.ceil_le.mp h0
      have hveq : v = 0 := le_antisymm (by simpa using hv0) hv
      constructor <;> push_cast <;> linarith
    · have h1 : v ≤ ((⌈v⌉ : ℤ) : ℚ) := Int.le_ceil v
      have h2 : ((⌈v⌉ : ℤ) : ℚ) < v + 1 := Int.ceil_lt_add_one v
      constructor <;> linarith

theorem roundAspectW_cases (w h bh : ℤ) :
    roundAspectW w h bh = clampOne (ratFloorDiv (bh * w) h) ∨
    roundAspectW w h bh = clampOne (ratCeilDiv (bh * w) h) := by
  simp only [roundAspectW]
  split
  · exact Or.inl rfl
  · exact Or.inr rfl

theorem roundAspectH_cases (w h bw : ℤ) :
    roundAspectH w h bw = clampOne (ratFloorDiv (bw * h) w) ∨
    roundAspectH w h bw = clampOne (ratCeilDiv (bw * h) w) := by
  simp only [roundAspectH]
  split
  · exact Or.inl rfl
  · exact Or.inr rfl

theorem thumbnailSize_of_fits (w h bw bh : ℤ) (h1 : w ≤ bw) (h2 : h ≤ bh) :
    thumbnailSize w h bw bh = (w, h) := by
  simp [thumbnailSize, h1, h2]

theorem thumbnailSize_bounds (w h bw bh : ℤ) (hw : 0 < w) (hh : 0 < h)
    (hbw : 0 < bw) (hbh : 0 < bh) :
    1 ≤ (thumbnailSize w h bw bh).1 ∧ (thumbnailSize w h bw bh).1 ≤ bw ∧
    1 ≤ (thumbnailSize w h bw bh).2 ∧ (thumbnailSize w h bw bh).2 ≤ bh := by
  have hwQ : (0 : ℚ) < (w : ℚ) := by exact_mod_cast hw
  have hhQ : (0 : ℚ) < (h : ℚ) := by exact_mod_cast hh
  have hbwQ : (0 : ℚ) < (bw : ℚ) := by exact_mod_cast hbw
  have hbhQ : (0 : ℚ) < (bh : ℚ) := by exact_mod_cast hbh
  rw [thumbnailSize]
  split_ifs with hfit hge
  · simp only [Prod.fst, Prod.snd]
    exact ⟨hw, hfit.1, hh, hfit.2⟩
  · simp only [Prod.fst, Prod.snd]
    have hq := (fracGE_iff bw bh w h hbh hh).mp hge
    have hcross : w * bh ≤ bw * h := by
      have h0 := (div_le_div_iff hhQ hbhQ).mp hq
      exact_mod_cast h0
    have hvle : ((bh * w : ℤ) : ℚ) / (h : ℚ) ≤ ((bw : ℤ) : ℚ) := by
      rw [div_le_iff hhQ]
      have hcrossQ : (w : ℚ) * (bh : ℚ) ≤ (bw : ℚ) * (h : ℚ) := by exact_mod_cast hcross
      push_cast
      linarith [mul_comm (bh : ℚ) (w : ℚ)]
    have hceil : ratCeilDiv (bh * w) h ≤ bw := by
      rw [ratCeilDiv_eq_ceil _ _ hh]
      exact Int.ceil_le.mpr hvle
    have hfloor : ratFloorDiv (bh * w) h ≤ bw := by
      rw [ratFloorDiv_eq_floor _ _ hh]
      calc ⌊((bh * w : ℤ) : ℚ) / (h : ℚ)⌋ ≤ ⌈((bh * w : ℤ) : ℚ) / (h : ℚ)⌉ :=
            Int.floor_le_ceil _
        _ ≤ bw := by rw [← ratCeilDiv_eq_ceil _ _ hh]; exact hceil
    refine ⟨?_, ?_, hbh, le_refl bh⟩
    · rcases roundAspectW_cases w h bh with hc | hc <;> rw [hc] <;>
        exact clampOne_one_le _
    · rcases roundAspectW_cases w h bh with hc | hc <;> rw [hc]
      · exact clampOne_le_of_le _ _ (by omega) hfloor
      · exact clampOne_le_of_le _ _ (by omega) hceil
  · simp only [Prod.fst, Prod.snd]
    have hlt : (bw : ℚ) / (bh : ℚ) < (w : ℚ) / (h : ℚ) := by
      rcases lt_or_ge ((bw : ℚ) / (bh : ℚ)) ((w : ℚ) / (h : ℚ)) with h0 | h0
      · exact h0
      · exact absurd ((fracGE_iff bw bh w h hbh hh).mpr h0) (by simpa using hge)
    have hcross : bw * h < w * bh := by
      have h0 := (div_lt_div_iff hbhQ hhQ).mp hlt
      exact_mod_cast h0
    have hvle : ((bw * h : ℤ) : ℚ) / (w : ℚ) ≤ ((bh : ℤ) : ℚ) := by
      rw [div_le_iff hwQ]
      have hcrossQ : (bw : ℚ) * (h : ℚ) < (w : ℚ) * (bh : ℚ) := by exact_mod_cast hcross
      push_cast
      linarith [mul_comm (bh : ℚ) (w : ℚ)]
    have hceil : ratCeilDiv (bw * h) w ≤ bh := by
      rw [ratCeilDiv_eq_ceil _ _ hw]
      exact Int.ceil_le.mpr hvle
    have hfloor : ratFloorDiv (bw * h) w ≤ bh := by
      rw [ratFloorDiv_eq_floor _ _ hw]
      calc ⌊((bw * h : ℤ) : ℚ) / (w : ℚ)⌋ ≤ ⌈((bw * h : ℤ) : ℚ) / (w : ℚ)⌉ :=
            Int.floor_le_ceil _
        _ ≤ bh := by rw [← ratCeilDiv_eq_ceil _ _ hw]; exact hceil
    refine ⟨hbw, le_refl bw, ?_, ?_⟩
    · rcases roundAspectH_cases w h bw with hc | hc <;> rw [hc] <;>
        exact clampOne_one_le _
    · rcases roundAspectH_cases w h bw with hc | hc <;> rw [hc]
      · exact clampOne_le_of_le _ _ (by omega) hfloor
      · exact clampOne_le_of_le _ _ (by omega) hceil

theorem thumbnailSize_scale (w h bw bh : ℤ) (hw : 0 < w) (hh : 0 < h)
    (hbw : 0 < bw) (hbh : 0 < bh) (hnofit : ¬(w ≤ bw ∧ h ≤ bh)) :
    |((thumbnailSize w h bw bh).1 : ℚ) - min ((bw : ℚ) / (w : ℚ)) ((bh : ℚ) / (h : ℚ)) * (w : ℚ)| ≤ 1 ∧
    |((thumbnailSize w h bw bh).2 : ℚ) - min ((bw : ℚ) / (w : ℚ)) ((bh : ℚ) / (h : ℚ)) * (h : ℚ)| ≤ 1 := by
  have hwQ : (0 : ℚ) < (w : ℚ) := by exact_mod_cast hw
  have hhQ : (0 : ℚ) < (h : ℚ) := by exact_mod_cast hh
  have hbwQ : (0 : ℚ) < (bw : ℚ) := by exact_mod_cast hbw
  have hbhQ : (0 : ℚ) < (bh : ℚ) := by exact_mod_cast hbh
  rw [thumbnailSize, if_neg hnofit]
  split_ifs with hge
  · have hq := (fracGE_iff bw bh w h hbh hh).mp hge
    have hmin : min ((bw : ℚ) / (w : ℚ)) ((bh : ℚ) / (h : ℚ)) = (bh : ℚ) / (h : ℚ) := by
      apply min_eq_right
      rw [div_le_div_iff hhQ hwQ]
      have h0 := (div_le_div_iff hhQ hbhQ).mp hq
      linarith [mul_comm (bh : ℚ) (w : ℚ)]
    rw [hmin]
    constructor
    · simp only [Prod.fst]
      have hveq : (bh : ℚ) / (h : ℚ) * (w : ℚ) = ((bh * w : ℤ) : ℚ) / (h : ℚ) := by
        push_cast; ring
      rw [hveq]
      have hv0 : (0 : ℚ) ≤ ((bh * w : ℤ) : ℚ) / (h : ℚ) := by
        apply div_nonneg _ hhQ.le
        exact_mod_cast (mul_pos hbh hw).le
      rcases roundAspectW_cases w h bh with hc | hc <;> rw [hc]
      · exact clampOne_near _ _ hv0 (Or.inl (ratFloorDiv_eq_floor _ _ hh))
      · exact clampOne_near _ _ hv0 (Or.inr (ratCeilDiv_eq_ceil _ _ hh))
    · simp only [Prod.snd]
      rw [div_mul_cancel₀ _ hhQ.ne']
      simp
  · have hlt : (bw : ℚ) / (bh : ℚ) < (w : ℚ) / (h : ℚ) := by
      rcases lt_or_ge ((bw : ℚ) / (bh : ℚ)) ((w : ℚ) / (h : ℚ)) with h0 | h0
      · exact h0
      · exact absurd ((fracGE_iff bw bh w h hbh hh).mpr h0) (by simpa using hge)
    have hmin : min ((bw : ℚ) / (w : ℚ)) ((bh : ℚ) / (h : ℚ)) = (bw : ℚ) / (w : ℚ) := by
      apply min_eq_left
      rw [div_le_div_iff hwQ hhQ]
      have h0 := (div_lt_div_iff hbhQ hhQ).mp hlt
      linarith [mul_comm (bh : ℚ) (w : ℚ)]
    rw [hmin]
    constructor
    · simp only [Prod.fst]
      rw [div_mul_cancel₀ _ hwQ.ne']
      simp
    · simp only [Prod.snd]
      have hveq : (bw : ℚ) / (w : ℚ) * (h : ℚ) = ((bw * h : ℤ) : ℚ) / (w : ℚ) := by
        push_cast; ring
      rw [hveq]
      have hv0 : (0 : ℚ) ≤ ((bw * h : ℤ) : ℚ) / (w : ℚ) := by
        apply div_nonneg _ hwQ.le
        exact_mod_cast (mul_pos hbw hh).le
      rcases roundAspectH_cases w h bw with hc | hc <;> rw [hc]
      · exact clampOne_near _ _ hv0 (Or.inl (ratFloorDiv_eq_floor _ _ hw))
      · exact clampOne_near _ _ hv0 (Or.inr (ratCeilDiv_eq_ceil _ _ hw))

theorem thumbnailResult_no_invalid (w h bw bh : ℤ) :
    thumbnailResult w h bw bh ≠ Except.error PreprocessError.invalidGeometryError := by
  simp only [thumbnailResult]
  split_ifs <;> simp

theorem centering_bounds (t fit b : ℤ) (hb : 0 ≤ b) (hfit1 : 1 ≤ fit)
    (hfit2 : fit ≤ t - 2 * b) :
    b ≤ Int.fdiv (t - fit) 2 ∧ Int.fdiv (t - fit) 2 + fit ≤ t - b := by
  rw [Int.fdiv_eq_ediv _ (by norm_num : (0 : ℤ) ≤ 2)]
  omega

/-! ### Claims -/

/-- C2: normalizing a 3000x4000 portrait source at 300 dpi with a 0.25 inch
border gives canvas width 1200 and height 1800, a 75 pixel border, a
1050x1650 safe area, a fitted image of 1050x1400 (scale 0.35), pasted at
x-offset 75 and y-offset (1800 - 1400) // 2 = 200. -/
theorem c2_portrait_border_scenario :
    preprocessGeometry 3000 4000 IMAGE_RESOLUTION BORDER_INCHES_NUM BORDER_INCHES_DEN =
      ⟨1200, 1800, 75, 1050, 1650, 1050, 1400, 75, 200⟩ := by decide

/-- C8: a source is classified portrait exactly when its height exceeds its
width (a square source counts as landscape), and the canvas assigns the
long axis (6 inches times the density) to the width for landscape sources
and to the height for portrait sources. -/
theorem c8_orientation_axes (w h : ℤ) (res : Resolution) :
    (isPortrait w h = true ↔ w < h) ∧ isPortrait w w = false ∧
    targetSize w h res =
      (if w < h then (4 * dpiValue res, 6 * dpiValue res)
       else (6 * dpiValue res, 4 * dpiValue res)) := by
  refine ⟨by simp [isPortrait], by simp [isPortrait], ?_⟩
  by_cases hlt : w < h
  · rw [if_pos hlt, targetSize, if_pos (by simp [isPortrait, hlt])]
    cases res <;> rfl
  · rw [if_neg hlt, targetSize, if_neg (by simp [isPortrait, hlt])]
    cases res <;> rfl

/-- C9 counterexample: for a border of 0.333 inches at density 300 the code
computes int(0.333 * 300) = int(99.9) = 99 border pixels, while rounding to
the nearest integer as the claim states would give 100. -/
theorem c9_counterexample :
    borderPixels 333 1000 300 = 99 ∧ specRoundNearest (333 * 300) 1000 = 100 ∧
    borderPixels 333 1000 300 ≠ specRoundNearest (333 * 300) 1000 := by decide

/-- C9 (amended): the border pixel count is the truncation (floor, for the
nonnegative values in use) of border_inches times density, not the nearest
integer; for the in-repo border of 0.25 inches this gives 75 pixels at 300
dpi and 150 pixels at 600 dpi, where truncation and rounding coincide. -/
theorem c9_border_truncation_amended (bn bd d : ℤ) (hbn : 0 ≤ bn) (hbd : 0 < bd)
    (hd : 0 ≤ d) :
    borderPixels bn bd d = ⌊((bn * d : ℤ) : ℚ) / ((bd : ℤ) : ℚ)⌋ ∧
    borderPixels BORDER_INCHES_NUM BORDER_INCHES_DEN 300 = 75 ∧
    borderPixels BORDER_INCHES_NUM BORDER_INCHES_DEN 600 = 150 := by
  refine ⟨?_, by decide, by decide⟩
  rw [borderPixels, truncFrac]
  rw [Int.tdiv_eq_ediv (mul_nonneg hbn hd) hbd.le]
  rw [← ratFloorDiv_eq_floor _ _ hbd, ratFloorDiv, if_pos hbd]

/-- C9 witness: the amended statement instantiated at the in-repo border
0.25 = 1/4 inch and density 300. -/
theorem c9_border_truncation_amended_witness :
    (0 : ℤ) ≤ 1 ∧ (0 : ℤ) < 4 ∧ (0 : ℤ) ≤ 300 ∧
    (borderPixels 1 4 300 = ⌊((1 * 300 : ℤ) : ℚ) / (((4 : ℤ) : ℤ) : ℚ)⌋ ∧
     borderPixels BORDER_INCHES_NUM BORDER_INCHES_DEN 300 = 75 ∧
     borderPixels BORDER_INCHES_NUM BORDER_INCHES_DEN 600 = 150) :=
  ⟨by decide, by decide, by decide,
   c9_border_truncation_amended 1 4 300 (by decide) (by decide) (by decide)⟩

/-- C3 counterexample: the save call of src/polling_script.py passes only
quality and optimize, so the encoded stream keeps the libjpeg default 4:2:0
chroma subsampling (not 4:4:4) and carries no density metadata. -/
theorem c3_counterexample :
    effectiveSubsampling rootEncode = 2 ∧ rootEncode.densityDpi = none ∧
    ¬ effectiveSubsampling rootEncode = 0 := by decide

/-- C3 (amended): the printer-client save call always encodes baseline
(non-progressive) JPEG at quality 95 with 4:4:4 subsampling and density
metadata equal to the dpi value used by the geometry computation; the
root-script save call is baseline at quality 95 but leaves chroma
subsampling and density at the encoder defaults. -/
theorem c3_encoding_amended (res : Resolution) :
    (clientEncode res).progressive = false ∧
    effectiveSubsampling (clientEncode res) = 0 ∧
    (clientEncode res).quality = 95 ∧
    (clientEncode res).densityDpi = some (dpiValue res, dpiValue res) ∧
    rootEncode.progressive = false ∧ rootEncode.quality = 95 := by
  cases res <;> exact ⟨rfl, rfl, rfl, rfl, rfl, rfl⟩

/-- C5 counterexample: a fully transparent black RGBA pixel is converted by
the code to opaque black (alpha merely discarded), while compositing over
an opaque white background as the claim states would give white. -/
theorem c5_counterexample :
    pilRGBAtoRGB 10 20 30 0 = (10, 20, 30) ∧
    flattenOverWhite 10 20 30 0 = (255, 255, 255) ∧
    pilRGBAtoRGB 10 20 30 0 ≠ flattenOverWhite 10 20 30 0 := by decide

/-- C5 (amended): every non-RGB mode is converted to RGB; the alpha channel
is discarded (the converted pixel is independent of alpha and keeps the
color channels unchanged, with no white compositing), and grayscale is
expanded by replicating the gray value into three channels. -/
theorem c5_color_conversion_amended (m : PilMode) (r g b a a2 : ℕ) :
    convertForPrint m = PilMode.RGB ∧
    pilRGBAtoRGB r g b a = pilRGBAtoRGB r g b a2 ∧
    pilRGBAtoRGB r g b a = (r, g, b) ∧
    pilLtoRGB g = (g, g, g) := by
  refine ⟨?_, rfl, rfl, rfl⟩
  cases m <;> rfl

/-- C4 counterexample: a 2.25 inch border at 300 dpi consumes the whole
1200 pixel short axis of the landscape canvas (safe height -150 ≤ 0), yet
normalization of a 4000x3000 source returns a result - the second
thumbnail branch sizes the fitted raster (450x338) from the aspect ratio
alone, never consulting the degenerate safe height - instead of failing
with an InvalidGeometryError.  At the still larger 3 inch border, where
the safe width itself reaches 0, the code raises a plain ZeroDivisionError
from the resize machinery, again not an InvalidGeometryError. -/
theorem c4_counterexample :
    (preprocessGeometry 4000 3000 Resolution.dpi300 9 4).availH ≤ 0 ∧
    preprocessResult true 4000 3000 Resolution.dpi300 9 4 =
      Except.ok (preprocessGeometry 4000 3000 Resolution.dpi300 9 4) ∧
    (preprocessGeometry 4000 3000 Resolution.dpi300 9 4).fitW = 450 ∧
    (preprocessGeometry 4000 3000 Resolution.dpi300 9 4).fitH = 338 ∧
    (preprocessGeometry 4000 3000 Resolution.dpi300 3 1).availW ≤ 0 ∧
    preprocessResult true 4000 3000 Resolution.dpi300 3 1 =
      Except.error PreprocessError.zeroDivisionError :=
  ⟨by decide, rfl, by decide, by decide, by decide, rfl⟩

/-- C4 (amended): the code performs no geometry validation: no execution of
the normalization ever fails with the InvalidGeometryError named by the
spec (a degenerate safe rectangle flows on into the thumbnail computation
or surfaces as a generic division or value error); with the in-repo
configuration (0.25 inch border at either supported density) the safe
rectangle is always strictly positive in both dimensions. -/
theorem c4_no_invalid_geometry_amended (dec : Bool) (w h : ℤ) (res : Resolution)
    (bn bd : ℤ) :
    preprocessResult dec w h res bn bd ≠
      Except.error PreprocessError.invalidGeometryError ∧
    0 < (preprocessGeometry w h res BORDER_INCHES_NUM BORDER_INCHES_DEN).availW ∧
    0 < (preprocessGeometry w h res BORDER_INCHES_NUM BORDER_INCHES_DEN).availH := by
  refine ⟨?_, ?_, ?_⟩
  · cases dec with
    | false => simp [preprocessResult]
    | true =>
      simp only [preprocessResult, if_true]
      cases hth : thumbnailResult w h (preprocessGeometry w h res bn bd).availW
          (preprocessGeometry w h res bn bd).availH with
      | error e =>
        cases e with
        | invalidGeometryError => exact absurd hth (thumbnailResult_no_invalid _ _ _ _)
        | decodeError => simp
        | zeroDivisionError => simp
        | valueError => simp
      | ok s => simp
  · have hval : (preprocessGeometry w h res BORDER_INCHES_NUM BORDER_INCHES_DEN).availW =
        (targetSize w h res).1 - 2 * borderPixels BORDER_INCHES_NUM BORDER_INCHES_DEN (dpiValue res) := rfl
    rw [hval, targetSize]
    by_cases hp : isPortrait w h = true
    · rw [if_pos hp]; cases res <;> decide
    · rw [if_neg hp]; cases res <;> decide
  · have hval : (preprocessGeometry w h res BORDER_INCHES_NUM BORDER_INCHES_DEN).availH =
        (targetSize w h res).2 - 2 * borderPixels BORDER_INCHES_NUM BORDER_INCHES_DEN (dpiValue res) := rfl
    rw [hval, targetSize]
    by_cases hp : isPortrait w h = true
    · rw [if_pos hp]; cases res <;> decide
    · rw [if_neg hp]; cases res <;> decide

/-- C1 counterexample: a 100x100 source inside a 1650x1050 safe rectangle is
left at 100x100 by the thumbnail fit; applying the scale factor
min(1650/100, 1050/100) = 10.5 unconditionally, as the claim states, would
enlarge it to 1050x1050. -/
theorem c1_counterexample :
    thumbnailSize 100 100 1650 1050 = (100, 100) ∧
    min ((1650 : ℚ) / 100) ((1050 : ℚ) / 100) * 100 = 1050 ∧
    thumbnailSize 100 100 1650 1050 ≠ (1050, 1050) := by
  refine ⟨by decide, ?_, by decide⟩
  rw [min_eq_right (by norm_num)]
  norm_num

/-- C1 (amended): the fit step never enlarges: a source that already fits
inside the safe rectangle is kept at its original size, and only a source
exceeding the safe rectangle in some dimension is resized, to the source
dimensions multiplied by min(safe_width / source_width,
safe_height / source_height), up to one pixel of integer rounding per
axis. -/
theorem c1_fit_scale_amended (w h bw bh : ℤ) (hw : 0 < w) (hh : 0 < h)
    (hbw : 0 < bw) (hbh : 0 < bh) :
    (w ≤ bw ∧ h ≤ bh → thumbnailSize w h bw bh = (w, h)) ∧
    (¬ (w ≤ bw ∧ h ≤ bh) →
      |((thumbnailSize w h bw bh).1 : ℚ) -
          min ((bw : ℚ) / (w : ℚ)) ((bh : ℚ) / (h : ℚ)) * (w : ℚ)| ≤ 1 ∧
      |((thumbnailSize w h bw bh).2 : ℚ) -
          min ((bw : ℚ) / (w : ℚ)) ((bh : ℚ) / (h : ℚ)) * (h : ℚ)| ≤ 1) :=
  ⟨fun hfits => thumbnailSize_of_fits w h bw bh hfits.1 hfits.2,
   fun hnofit => thumbnailSize_scale w h bw bh hw hh hbw hbh hnofit⟩

/-- C1 witness: the amended statement instantiated at the 3000x4000 source
and the 1050x1650 safe rectangle of the concrete portrait scenario. -/
theorem c1_fit_scale_amended_witness :
    (0 : ℤ) < 3000 ∧ (0 : ℤ) < 4000 ∧ (0 : ℤ) < 1050 ∧ (0 : ℤ) < 1650 ∧
    (((3000 : ℤ) ≤ 1050 ∧ (4000 : ℤ) ≤ 1650 →
        thumbnailSize 3000 4000 1050 1650 = (3000, 4000)) ∧
     (¬ ((3000 : ℤ) ≤ 1050 ∧ (4000 : ℤ) ≤ 1650) →
        |((thumbnailSize 3000 4000 1050 1650).1 : ℚ) -
            min ((1050 : ℚ) / ((3000 : ℤ) : ℚ)) ((1650 : ℚ) / ((4000 : ℤ) : ℚ)) *
              ((3000 : ℤ) : ℚ)| ≤ 1 ∧
        |((thumbnailSize 3000 4000 1050 1650).2 : ℚ) -
            min ((1050 : ℚ) / ((3000 : ℤ) : ℚ)) ((1650 : ℚ) / ((4000 : ℤ) : ℚ)) *
              ((4000 : ℤ) : ℚ)| ≤ 1)) :=
  ⟨by decide, by decide, by decide, by decide,
   c1_fit_scale_amended 3000 4000 1050 1650 (by decide) (by decide) (by decide) (by decide)⟩

/-- C6: for every source with positive dimensions and every geometry with a
nonnegative border and a strictly positive safe rectangle, the fitted
raster together with its centering offsets lies fully inside the safe
rectangle: the offsets are at least the border width and offset plus
fitted size stays at least one border width away from the far canvas edge
on both axes. -/
theorem c6_fit_within_safe_rect (w h : ℤ) (res : Resolution) (bn bd : ℤ)
    (hw : 0 < w) (hh : 0 < h)
    (hbp : 0 ≤ (preprocessGeometry w h res bn bd).borderPx)
    (haw : 0 < (preprocessGeometry w h res bn bd).availW)
    (hah : 0 < (preprocessGeometry w h res bn bd).availH) :
    (preprocessGeometry w h res bn bd).borderPx ≤ (preprocessGeometry w h res bn bd).offX ∧
    (preprocessGeometry w h res bn bd).offX + (preprocessGeometry w h res bn bd).fitW ≤
      (preprocessGeometry w h res bn bd).targetW - (preprocessGeometry w h res bn bd).borderPx ∧
    (preprocessGeometry w h res bn bd).borderPx ≤ (preprocessGeometry w h res bn bd).offY ∧
    (preprocessGeometry w h res bn bd).offY + (preprocessGeometry w h res bn bd).fitH ≤
      (preprocessGeometry w h res bn bd).targetH - (preprocessGeometry w h res bn bd).borderPx := by
  have hfw : (preprocessGeometry w h res bn bd).fitW =
      (thumbnailSize w h (preprocessGeometry w h res bn bd).availW
        (preprocessGeometry w h res bn bd).availH).1 := rfl
  have hfh : (preprocessGeometry w h res bn bd).fitH =
      (thumbnailSize w h (preprocessGeometry w h res bn bd).availW
        (preprocessGeometry w h res bn bd).availH).2 := rfl
  have haw2 : (preprocessGeometry w h res bn bd).availW =
      (preprocessGeometry w h res bn bd).targetW -
        2 * (preprocessGeometry w h res bn bd).borderPx := rfl
  have hah2 : (preprocessGeometry w h res bn bd).availH =
      (preprocessGeometry w h res bn bd).targetH -
        2 * (preprocessGeometry w h res bn bd).borderPx := rfl
  have hox : (preprocessGeometry w h res bn bd).offX =
      Int.fdiv ((preprocessGeometry w h res bn bd).targetW -
        (preprocessGeometry w h res bn bd).fitW) 2 := rfl
  have hoy : (preprocessGeometry w h res bn bd).offY =
      Int.fdiv ((preprocessGeometry w h res bn bd).targetH -
        (preprocessGeometry w h res bn bd).fitH) 2 := rfl
  obtain ⟨hb1, hb2, hb3, hb4⟩ := thumbnailSize_bounds w h
    (preprocessGeometry w h res bn bd).availW
    (preprocessGeometry w h res bn bd).availH hw hh haw hah
  have hcx := centering_bounds (preprocessGeometry w h res bn bd).targetW
    (preprocessGeometry w h res bn bd).fitW (preprocessGeometry w h res bn bd).borderPx
    hbp (by rw [hfw]; exact hb1) (by rw [hfw, ← haw2]; exact hb2)
  have hcy := centering_bounds (preprocessGeometry w h res bn bd).targetH
    (preprocessGeometry w h res bn bd).fitH (preprocessGeometry w h res bn bd).borderPx
    hbp (by rw [hfh]; exact hb3) (by rw [hfh, ← hah2]; exact hb4)
  rw [hox, hoy]
  exact ⟨hcx.1, by linarith [hcx.2], hcy.1, by linarith [hcy.2]⟩

/-- C6 witness: the containment statement instantiated at the 3000x4000
portrait source with the in-repo 0.25 inch border at 300 dpi. -/
theorem c6_fit_within_safe_rect_witness :
    (0 : ℤ) < 3000 ∧ (0 : ℤ) < 4000 ∧
    0 ≤ (preprocessGeometry 3000 4000 Resolution.dpi300 1 4).borderPx ∧
    0 < (preprocessGeometry 3000 4000 Resolution.dpi300 1 4).availW ∧
    0 < (preprocessGeometry 3000 4000 Resolution.dpi300 1 4).availH ∧
    ((preprocessGeometry 3000 4000 Resolution.dpi300 1 4).borderPx ≤
        (preprocessGeometry 3000 4000 Resolution.dpi300 1 4).offX ∧
     (preprocessGeometry 3000 4000 Resolution.dpi300 1 4).offX +
        (preprocessGeometry 3000 4000 Resolution.dpi300 1 4).fitW ≤
      (preprocessGeometry 3000 4000 Resolution.dpi300 1 4).targetW -
        (preprocessGeometry 3000 4000 Resolution.dpi300 1 4).borderPx ∧
     (preprocessGeometry 3000 4000 Resolution.dpi300 1 4).borderPx ≤
        (preprocessGeometry 3000 4000 Resolution.dpi300 1 4).offY ∧
     (preprocessGeometry 3000 4000 Resolution.dpi300 1 4).offY +
        (preprocessGeometry 3000 4000 Resolution.dpi300 1 4).fitH ≤
      (preprocessGeometry 3000 4000 Resolution.dpi300 1 4).targetH -
        (preprocessGeometry 3000 4000 Resolution.dpi300 1 4).borderPx) :=
  ⟨by decide, by decide, by decide, by decide, by decide,
   c6_fit_within_safe_rect 3000 4000 Resolution.dpi300 1 4 (by decide) (by decide)
     (by decide) (by decide) (by decide)⟩

/-- C7: a job whose download or preprocessing fails leaves the printed set
and the ledger unchanged, issues no print command, and the polling loop
goes on to process the remaining jobs. -/
theorem c7_failed_job_not_recorded (cfg : LoopConfig) (s : LoopState) (f : String)
    (env : JobEnv) (rest : List (String × JobEnv))
    (hfail : env.downloadOk = false ∨
      (cfg.skipPreprocessing = false ∧ env.preprocessOk = false)) :
    (processJob cfg s f env).state = s ∧
    (processJob cfg s f env).printCommandRun = false ∧
    runJobs cfg s ((f, env) :: rest) = runJobs cfg s rest := by
  have hstep : processJob cfg s f env = ⟨s, false⟩ := by
    rcases hfail with hdl | ⟨hskip, hpre⟩
    · simp [processJob, hdl]
    · simp [processJob, hskip, hpre]
  refine ⟨by rw [hstep], by rw [hstep], ?_⟩
  simp [runJobs, hstep]

/-- C7 witness: the failure statement instantiated at an empty state and a
job whose download fails. -/
theorem c7_failed_job_not_recorded_witness :
    ((JobEnv.mk false true true).downloadOk = false ∨
      ((LoopConfig.mk false false).skipPreprocessing = false ∧
        (JobEnv.mk false true true).preprocessOk = false)) ∧
    ((processJob (LoopConfig.mk false false) (LoopState.mk [] []) "party01.jpg"
        (JobEnv.mk false true true)).state = LoopState.mk [] [] ∧
     (processJob (LoopConfig.mk false false) (LoopState.mk [] []) "party01.jpg"
        (JobEnv.mk false true true)).printCommandRun = false ∧
     runJobs (LoopConfig.mk false false) (LoopState.mk [] [])
        [("party01.jpg", JobEnv.mk false true true)] =
       runJobs (LoopConfig.mk false false) (LoopState.mk [] []) []) :=
  ⟨Or.inl rfl,
   c7_failed_job_not_recorded (LoopConfig.mk false false) (LoopState.mk [] [])
     "party01.jpg" (JobEnv.mk false true true) [] (Or.inl rfl)⟩

/-- C10: with dry-run mode enabled, a new job whose download and
preprocessing succeed runs no print command, yet its filename is added to
the in-memory printed set and appended to the ledger, permanently marking
it processed without ever being printed. -/
theorem c10_dry_run_marks_processed (cfg : LoopConfig) (s : LoopState) (f : String)
    (env : JobEnv) (hdry : cfg.dryRun = true) (hnew : f ∉ s.printed)
    (hdl : env.downloadOk = true) (hpre : env.preprocessOk = true) :
    (processJob cfg s f env).printCommandRun = false ∧
    (processJob cfg s f env).state.printed = f :: s.printed ∧
    (processJob cfg s f env).state.ledger = s.ledger ++ [f] := by
  have hstep : processJob cfg s f env = ⟨⟨f :: s.printed, s.ledger ++ [f]⟩, false⟩ := by
    simp [processJob, hnew, hdl, hpre, hdry]
  rw [hstep]
  exact ⟨rfl, rfl, rfl⟩

/-- C10 witness: the dry-run statement instantiated at an empty state with
every external step succeeding. -/
theorem c10_dry_run_marks_processed_witness :
    (LoopConfig.mk true false).dryRun = true ∧
    "party02.jpg" ∉ (LoopState.mk [] []).printed ∧
    (JobEnv.mk true true true).downloadOk = true ∧
    (JobEnv.mk true true true).preprocessOk = true ∧
    ((processJob (LoopConfig.mk true false) (LoopState.mk [] []) "party02.jpg"
        (JobEnv.mk true true true)).printCommandRun = false ∧
     (processJob (LoopConfig.mk true false) (LoopState.mk [] []) "party02.jpg"
        (JobEnv.mk true true true)).state.printed = "party02.jpg" :: [] ∧
     (processJob (LoopConfig.mk true false) (LoopState.mk [] []) "party02.jpg"
        (JobEnv.mk true true true)).state.ledger = [] ++ ["party02.jpg"]) :=
  ⟨rfl, by simp, rfl, rfl,
   c10_dry_run_marks_processed (LoopConfig.mk true false) (LoopState.mk [] [])
     "party02.jpg" (JobEnv.mk true true true) rfl (by simp) rfl rfl⟩
